import Mathlib

/-!
Shallow embedding of the animation engine of the streamdeck-companion client
library.  The color model (`hexToRgb`, `rgbToHex`, `mixColors`, `hslToHex`,
`colorsEqual`) is translated from `src/streamdeck/client.ts` and
`src/streamdeck/animator.ts`; the animator state machine (`createFlash`,
`createFade`, `createRainbow`, `stopAnimation`, `stopAll`, `tick`) from
`src/streamdeck/animator.ts`; the predicate auto-stop watcher and the fluent-
layer flash call from `ButtonChain.animate` in `src/streamdeck/client.ts`.

JavaScript numbers are idealised as rationals (`ℚ`), except for the sine used
by the flash interpolation, which is idealised as `Real.sin`.  `Math.round`
rounds half toward positive infinity, exactly like Mathlib's `round`
(`round x = ⌊x + 1/2⌋`).
-/

namespace StreamDeck

/-- `Math.trunc`-style truncation of a rational toward zero (the integer part
used by the JavaScript `%` operator). -/
def jsTrunc (q : ℚ) : ℤ := if 0 ≤ q then ⌊q⌋ else ⌈q⌉

/-- The JavaScript `%` operator on numbers: `x - y * trunc(x / y)` (the sign
follows the dividend). -/
def jsMod (x y : ℚ) : ℚ := x - y * (jsTrunc (x / y) : ℚ)

/-- One character of the regex character class `[a-f\d]` with the `i` flag:
a decimal digit, or a hex letter in either case. -/
def isHexDigit (c : Char) : Bool :=
  (48 ≤ c.toNat && c.toNat ≤ 57) || (97 ≤ c.toNat && c.toNat ≤ 102) ||
    (65 ≤ c.toNat && c.toNat ≤ 70)

/-- Value of one hex digit, as computed by `parseInt(-, 16)` per character. -/
def hexVal (c : Char) : ℕ :=
  if 48 ≤ c.toNat && c.toNat ≤ 57 then c.toNat - 48
  else if 97 ≤ c.toNat && c.toNat ≤ 102 then c.toNat - 87
  else c.toNat - 55

/-- `String.prototype.toUpperCase`, character-wise (all strings involved are
ASCII). -/
def jsToUpperCase (s : String) : String := String.mk (s.data.map Char.toUpper)

/-- One lowercase hex digit of `Number.prototype.toString(16)`. -/
def hexCharOf (n : ℕ) : Char :=
  if n < 10 then Char.ofNat (48 + n) else Char.ofNat (87 + n)

/-- `n.toString(16)` for `n ≤ 255`, left-padded to two characters
(`hex.length === 1 ? '0' + hex : hex` in `StreamDeckClient.rgbToHex`). -/
def toHexPair (n : ℕ) : List Char :=
  if n < 16 then ['0', hexCharOf n] else [hexCharOf (n / 16), hexCharOf (n % 16)]

/-- `StreamDeckClient.rgbToHex` (src/streamdeck/client.ts:700-706):
each channel is passed through `Math.round(Math.max(0, Math.min(255, n)))`,
encoded as two hex digits, and the whole `#`-prefixed string is uppercased. -/
def rgbToHex (r g b : ℚ) : String :=
  let toHex : ℚ → List Char := fun n => toHexPair (round (max 0 (min 255 n))).toNat
  jsToUpperCase (String.mk ('#' :: (toHex r ++ toHex g ++ toHex b)))

/-- `StreamDeckClient.hexToRgb` (src/streamdeck/client.ts:711-718): the regex
`^#?([a-f\d]{2})([a-f\d]{2})([a-f\d]{2})$/i` followed by `parseInt(-, 16)` on
each two-digit group. -/
def hexToRgb (s : String) : Option (ℕ × ℕ × ℕ) :=
  let cs := match s.data with
    | '#' :: rest => rest
    | l => l
  match cs with
  | [c1, c2, c3, c4, c5, c6] =>
    if isHexDigit c1 && isHexDigit c2 && isHexDigit c3 && isHexDigit c4 &&
        isHexDigit c5 && isHexDigit c6 then
      some (16 * hexVal c1 + hexVal c2, 16 * hexVal c3 + hexVal c4,
        16 * hexVal c5 + hexVal c6)
    else none
  | _ => none

/-- `StreamDeckClient.isValidHexColor`: the regex `^#[0-9A-F]{6}$/i`
(a leading `#`, then exactly six hex digits of either case). -/
def isValidHexColor (s : String) : Bool :=
  match s.data with
  | c :: l => c == '#' && l.length == 6 && l.all isHexDigit
  | _ => false

/-- `clamp` from src/streamdeck/animator.ts:234-236 with the default bounds:
`Math.max(0, Math.min(255, Math.round(v)))`. -/
def clamp (v : ℚ) : ℤ := max 0 (min 255 (round v))

/-- Real-number variant of `clamp`, for the sine-valued flash factor. -/
noncomputable def clampR (v : ℝ) : ℤ := max 0 (min 255 (round v))

/-- `mixColors` from src/streamdeck/animator.ts:238-247: parse both endpoints
(unparsable input degrades to black), interpolate each channel linearly,
clamp, and re-encode. -/
def mixColors (hexA hexB : String) (t : ℚ) : String :=
  let a := (hexToRgb hexA).getD (0, 0, 0)
  let b := (hexToRgb hexB).getD (0, 0, 0)
  let r := clamp ((a.1 : ℚ) + ((b.1 : ℚ) - (a.1 : ℚ)) * t)
  let g := clamp ((a.2.1 : ℚ) + ((b.2.1 : ℚ) - (a.2.1 : ℚ)) * t)
  let bb := clamp ((a.2.2 : ℚ) + ((b.2.2 : ℚ) - (a.2.2 : ℚ)) * t)
  rgbToHex (r : ℚ) (g : ℚ) (bb : ℚ)

/-- `mixColors` with a real interpolation parameter (the flash factor contains
`Math.sin`). -/
noncomputable def mixColorsR (hexA hexB : String) (t : ℝ) : String :=
  let a := (hexToRgb hexA).getD (0, 0, 0)
  let b := (hexToRgb hexB).getD (0, 0, 0)
  let r := clampR ((a.1 : ℝ) + ((b.1 : ℝ) - (a.1 : ℝ)) * t)
  let g := clampR ((a.2.1 : ℝ) + ((b.2.1 : ℝ) - (a.2.1 : ℝ)) * t)
  let bb := clampR ((a.2.2 : ℝ) + ((b.2.2 : ℝ) - (a.2.2 : ℝ)) * t)
  rgbToHex (r : ℚ) (g : ℚ) (bb : ℚ)

/-- `colorsEqual` from src/streamdeck/animator.ts:249-251: case-insensitive
string comparison. -/
def colorsEqual (a b : String) : Bool := jsToUpperCase a == jsToUpperCase b

/-- `hslToHex` from src/streamdeck/animator.ts:254-274. -/
def hslToHex (h s l : ℚ) : String :=
  let c := (1 - |2 * l - 1|) * s
  let hh := jsMod (h / 60) 6
  let x := c * (1 - |jsMod hh 2 - 1|)
  let rgb1 : ℚ × ℚ × ℚ :=
    if 0 ≤ hh ∧ hh < 1 then (c, x, 0)
    else if 1 ≤ hh ∧ hh < 2 then (x, c, 0)
    else if 2 ≤ hh ∧ hh < 3 then (0, c, x)
    else if 3 ≤ hh ∧ hh < 4 then (0, x, c)
    else if 4 ≤ hh ∧ hh < 5 then (x, 0, c)
    else (c, 0, x)
  let m := l - c / 2
  let r := clamp ((rgb1.1 + m) * 255)
  let g := clamp ((rgb1.2.1 + m) * 255)
  let b := clamp ((rgb1.2.2 + m) * 255)
  rgbToHex (r : ℚ) (g : ℚ) (b : ℚ)

/-- The flash interpolation factor (src/streamdeck/animator.ts:188):
`0.5 * (1 + Math.sin(progress * Math.PI * 2 * repeats))`. -/
noncomputable def flashFactor (progress repeats : ℚ) : ℝ :=
  0.5 * (1 + Real.sin ((progress : ℝ) * Real.pi * 2 * (repeats : ℝ)))

/-! ## Animator data model (src/streamdeck/animator.ts, src/streamdeck/types.ts) -/

/-- The `AnimationType` union. -/
inductive AnimationType
  | flash
  | fade
  | rainbow
deriving DecidableEq

/-- `ButtonPosition` from src/streamdeck/types.ts. -/
structure ButtonPosition where
  page : ℤ
  row : ℤ
  column : ℤ
deriving DecidableEq

/-- `ButtonStyle` from src/streamdeck/types.ts (every field optional). -/
structure ButtonStyle where
  text : Option String := none
  bgcolor : Option String := none
  color : Option String := none
  size : Option ℚ := none
deriving DecidableEq

/-- Caller-facing `AnimationOptions` (every field optional). -/
structure AnimationOptions where
  duration : Option ℚ := none
  loop : Option Bool := none
  fps : Option ℚ := none
  flashColor : Option String := none
  intervals : Option ℚ := none
  fromColor : Option String := none
  toColor : Option String := none
  saturation : Option ℚ := none
  lightness : Option ℚ := none
deriving DecidableEq

/-- `Required<AnimationOptions>`, as stored in a registry entry. -/
structure FilledAnimationOptions where
  duration : ℚ
  loop : Bool
  fps : ℚ
  flashColor : String
  intervals : ℚ
  fromColor : String
  toColor : String
  saturation : ℚ
  lightness : ℚ
deriving DecidableEq

/-- `InternalAnimation` from src/streamdeck/animator.ts:26-34. -/
structure InternalAnimation where
  id : String
  type : AnimationType
  position : ButtonPosition
  options : FilledAnimationOptions
  startTime : ℚ
  originalStyle : ButtonStyle
  lastSentBg : Option String := none
deriving DecidableEq

/-- The mutable state of one `Animator` instance: the timer handle (modelled
as a boolean), the animation registry (an insertion-ordered map, as a
JavaScript `Map` is), and the id counter. -/
structure AnimatorState where
  fps : ℚ
  tickInterval : ℚ
  timerOn : Bool
  animations : List (String × InternalAnimation)
  idCounter : ℕ
deriving DecidableEq

/-- One entry of the per-tick batch handed to `client.executeBatch`
(`{ action: 'style', position, data }`; the action tag is always `'style'`). -/
structure StyleOp where
  position : ButtonPosition
  data : ButtonStyle
deriving DecidableEq

/-- The `Animator` constructor (src/streamdeck/animator.ts:51-55):
`fps = Math.max(1, Math.min(60, Math.round(fps)))`,
`tickInterval = Math.round(1000 / fps)`. -/
def mkAnimator (fps : ℚ) : AnimatorState :=
  let f : ℤ := max 1 (min 60 (round fps))
  { fps := (f : ℚ), tickInterval := ((round ((1000 : ℚ) / (f : ℚ))) : ℚ),
    timerOn := false, animations := [], idCounter := 1 }

/-- `Animator.start` (idempotent: `if (this.timer) return`). -/
def startTimer (st : AnimatorState) : AnimatorState :=
  if st.timerOn then st else { st with timerOn := true }

/-- `Animator.stop`. -/
def stopTimer (st : AnimatorState) : AnimatorState := { st with timerOn := false }

/-- `Map.prototype.set`: replace in place when the key exists, append
otherwise. -/
def mapSet (m : List (String × InternalAnimation)) (k : String)
    (v : InternalAnimation) : List (String × InternalAnimation) :=
  if m.any (fun p => p.1 == k) then
    m.map (fun p => if p.1 == k then (k, v) else p)
  else m ++ [(k, v)]

/-- `Map.prototype.delete`. -/
def mapDelete (m : List (String × InternalAnimation)) (k : String) :
    List (String × InternalAnimation) :=
  m.filter (fun p => ¬ p.1 == k)

/-- Option filling of `Animator.createFlash` (src/streamdeck/animator.ts:73-83). -/
def defaultsFlash (o : AnimationOptions) (animFps : ℚ) : FilledAnimationOptions :=
  { duration := o.duration.getD 1000
    loop := o.loop.getD false
    fps := o.fps.getD animFps
    flashColor := o.flashColor.getD "#FFFFFF"
    intervals := o.intervals.getD 4
    fromColor := o.fromColor.getD "#000000"
    toColor := o.toColor.getD "#000000"
    saturation := o.saturation.getD 1
    lightness := o.lightness.getD 0.5 }

/-- Option filling of `Animator.createFade` (src/streamdeck/animator.ts:100-110);
`fromColor` defaults to `originalStyle.bgcolor ?? '#000000'`. -/
def defaultsFade (o : AnimationOptions) (originalStyle : ButtonStyle)
    (animFps : ℚ) : FilledAnimationOptions :=
  { duration := o.duration.getD 1000
    loop := o.loop.getD false
    fps := o.fps.getD animFps
    flashColor := o.flashColor.getD "#FFFFFF"
    intervals := o.intervals.getD 1
    fromColor := o.fromColor.getD (originalStyle.bgcolor.getD "#000000")
    toColor := o.toColor.getD "#000000"
    saturation := o.saturation.getD 1
    lightness := o.lightness.getD 0.5 }

/-- Option filling of `Animator.createRainbow` (src/streamdeck/animator.ts:127-137). -/
def defaultsRainbow (o : AnimationOptions) (animFps : ℚ) : FilledAnimationOptions :=
  { duration := o.duration.getD 3000
    loop := o.loop.getD true
    fps := o.fps.getD animFps
    flashColor := o.flashColor.getD "#FFFFFF"
    intervals := o.intervals.getD 1
    fromColor := o.fromColor.getD "#000000"
    toColor := o.toColor.getD "#000000"
    saturation := o.saturation.getD 1
    lightness := o.lightness.getD 0.5 }

/-- Shared tail of the three builders: assign `anim-${idCounter++}`, store the
entry with `startTime = Date.now()` (`now` here) and no `lastSentBg`, start
the shared timer, return the id. -/
def createAnim (ty : AnimationType) (opts : FilledAnimationOptions) (now : ℚ)
    (position : ButtonPosition) (originalStyle : ButtonStyle)
    (st : AnimatorState) : String × AnimatorState :=
  let id := "anim-" ++ toString st.idCounter
  let a : InternalAnimation :=
    { id := id, type := ty, position := position, options := opts,
      startTime := now, originalStyle := originalStyle, lastSentBg := none }
  let st1 := { st with
    animations := mapSet st.animations id a
    idCounter := st.idCounter + 1 }
  (id, startTimer st1)

/-- `Animator.createFlash` (src/streamdeck/animator.ts:72-97); `now` stands
for `Date.now()`. -/
def createFlash (now : ℚ) (position : ButtonPosition)
    (originalStyle : ButtonStyle) (o : AnimationOptions) (st : AnimatorState) :
    String × AnimatorState :=
  createAnim .flash (defaultsFlash o st.fps) now position originalStyle st

/-- `Animator.createFade` (src/streamdeck/animator.ts:99-124). -/
def createFade (now : ℚ) (position : ButtonPosition)
    (originalStyle : ButtonStyle) (o : AnimationOptions) (st : AnimatorState) :
    String × AnimatorState :=
  createAnim .fade (defaultsFade o originalStyle st.fps) now position
    originalStyle st

/-- `Animator.createRainbow` (src/streamdeck/animator.ts:126-151). -/
def createRainbow (now : ℚ) (position : ButtonPosition)
    (originalStyle : ButtonStyle) (o : AnimationOptions) (st : AnimatorState) :
    String × AnimatorState :=
  createAnim .rainbow (defaultsRainbow o st.fps) now position originalStyle st

/-- `Animator.stopAnimation` (src/streamdeck/animator.ts:153-156): delete the
entry, stop the timer when the registry became empty. -/
def stopAnimation (id : String) (st : AnimatorState) : AnimatorState :=
  let anims := mapDelete st.animations id
  let st1 := { st with animations := anims }
  if anims.isEmpty then stopTimer st1 else st1

/-- `Animator.stopAll` (src/streamdeck/animator.ts:158-161). -/
def stopAll (st : AnimatorState) : AnimatorState :=
  stopTimer { st with animations := [] }

/-- The effective oscillation count of the flash interpolation
(src/streamdeck/animator.ts:187): `Math.max(1, anim.options.intervals)`. -/
def flashRepeats (a : InternalAnimation) : ℚ := max 1 a.options.intervals

/-- The background color one tick computes for one animation
(src/streamdeck/animator.ts:176-198).  `progress` is `min(1, elapsed/duration)`,
overwritten by the wrapped `(elapsed % duration) / duration` when looping; the
rainbow branch ignores `progress` and always wraps `elapsed` modulo the
duration. -/
noncomputable def nextBg (now : ℚ) (a : InternalAnimation) : String :=
  let elapsed := now - a.startTime
  let duration := a.options.duration
  let progress0 := min 1 (elapsed / duration)
  let progress := if a.options.loop then jsMod elapsed duration / duration
    else progress0
  match a.type with
  | .flash =>
    mixColorsR (a.originalStyle.bgcolor.getD "#000000") a.options.flashColor
      (flashFactor progress (flashRepeats a))
  | .fade => mixColors a.options.fromColor a.options.toColor progress
  | .rainbow =>
    let period := a.options.duration
    let t := jsMod elapsed period / period
    hslToHex ((⌊t * 360⌋ : ℤ) : ℚ) a.options.saturation a.options.lightness

/-- One animation's share of a tick (src/streamdeck/animator.ts:172-215):
emit a style op unless the computed color equals the last sent one, then
retire the animation when it is non-looping and `elapsed >= duration`
(the final frame is still part of the batch). -/
noncomputable def tickOne (now : ℚ) (a : InternalAnimation) :
    Option InternalAnimation × List StyleOp :=
  let elapsed := now - a.startTime
  let nb := nextBg now a
  let sent : InternalAnimation × List StyleOp :=
    match a.lastSentBg with
    | none =>
      ({ a with lastSentBg := some nb },
        [{ position := a.position,
           data := { a.originalStyle with bgcolor := some nb } }])
    | some lsb =>
      if colorsEqual lsb nb then (a, [])
      else
        ({ a with lastSentBg := some nb },
          [{ position := a.position,
             data := { a.originalStyle with bgcolor := some nb } }])
  if ¬ a.options.loop = true ∧ a.options.duration ≤ elapsed then
    (none, sent.2)
  else (some sent.1, sent.2)

/-- Visit the registry in insertion order, accumulating surviving entries and
the batch. -/
noncomputable def tickList (now : ℚ) :
    List (String × InternalAnimation) →
      List (String × InternalAnimation) × List StyleOp
  | [] => ([], [])
  | p :: rest =>
    let r := tickOne now p.2
    let rr := tickList now rest
    match r.1 with
    | some a2 => ((p.1, a2) :: rr.1, r.2 ++ rr.2)
    | none => (rr.1, r.2 ++ rr.2)

/-- `Animator.tick` (src/streamdeck/animator.ts:163-227).  An empty registry
stops the timer and emits nothing; otherwise every animation is visited and
the batch is returned (the caller dispatches it through `executeBatch` only
when non-empty).  Note the timer is NOT stopped when the registry empties
during the tick itself. -/
noncomputable def tick (now : ℚ) (st : AnimatorState) :
    AnimatorState × List StyleOp :=
  if st.animations.isEmpty then (stopTimer st, [])
  else
    let r := tickList now st.animations
    ({ st with animations := r.1 }, r.2)

/-- Iterate `tick` over a list of clock readings, collecting each tick's
batch. -/
noncomputable def runTicks (ts : List ℚ) (st : AnimatorState) :
    AnimatorState × List (List StyleOp) :=
  match ts with
  | [] => (st, [])
  | t :: rest =>
    let r := tick t st
    let rr := runTicks rest r.1
    (rr.1, r.2 :: rr.2)

/-! ## Fluent layer (`ButtonChain.animate`, src/streamdeck/client.ts) -/

/-- The poll interval of the predicate watcher
(src/streamdeck/client.ts:1454): `Math.max(200, Math.round(duration / 2))`. -/
def pollInterval (duration : ℚ) : ℚ := max 200 ((round (duration / 2) : ℤ) : ℚ)

/-- One predicate evaluation: `some b` models a normal return of `b`, `none`
models a thrown exception; the watcher's `try`/`catch` turns an exception
into `ok = false`. -/
def predOk (r : Option Bool) : Bool := r.getD false

/-- The predicate watcher loop (src/streamdeck/client.ts:1440-1456): evaluate
the predicate; when it is not truthy (returned false or threw), call
`animator.stopAnimation(id)` and exit, reporting the index of the failing
evaluation; otherwise sleep one poll interval and re-check.  `fuel` bounds the
number of evaluations modelled; `none` in the result means the loop was still
running. -/
def watcherLoop (pred : ℕ → Option Bool) (id : String) (st : AnimatorState) :
    ℕ → ℕ → AnimatorState × Option ℕ
  | 0, _ => (st, none)
  | fuel + 1, n =>
    if predOk (pred n) then watcherLoop pred id st fuel (n + 1)
    else (stopAnimation id st, some n)

/-- The looping-flash arm of `ButtonChain.animate`
(src/streamdeck/client.ts:1425-1432): `flashColor` falls back to the resolved
target's background then white, and `intervals` defaults to `2` before
`Animator.createFlash` is called. -/
def animateLoopFlash (now : ℚ) (position : ButtonPosition)
    (resolvedTarget : ButtonStyle) (duration : ℚ) (fromColor : Option String)
    (intervals : Option ℚ) (st : AnimatorState) : String × AnimatorState :=
  let flashColor := (fromColor.or resolvedTarget.bgcolor).getD "#FFFFFF"
  createFlash now position resolvedTarget
    { duration := some duration, loop := some true,
      flashColor := some flashColor, intervals := some (intervals.getD 2) } st

/-! ## Concrete scenario states -/

/-- The state predicate threaded through the C6 trace: the registry is empty,
or holds exactly the one black-to-black fade which has already sent black. -/
def SentBlackInv (i : String) (st : AnimatorState) : Prop :=
  st.animations = [] ∨ ∃ a, st.animations = [(i, a)] ∧ a.type = .fade
    ∧ a.options.fromColor = "#000000" ∧ a.options.toColor = "#000000"
    ∧ a.lastSentBg = some "#000000"

/-- A concrete black-to-black fade animation (fresh, nothing sent yet). -/
def fadeBBScn : InternalAnimation where
  id := "anim-1"
  type := .fade
  position := ⟨0, 0, 0⟩
  options :=
    { duration := 1000
      loop := false
      fps := 15
      flashColor := "#FFFFFF"
      intervals := 1
      fromColor := "#000000"
      toColor := "#000000"
      saturation := 1
      lightness := 1/2 }
  startTime := 0
  originalStyle := { bgcolor := some "#000000" }
  lastSentBg := none

/-- An animator state holding exactly `fadeBBScn`, ticker running. -/
def fadeBBSt : AnimatorState where
  fps := 15
  tickInterval := 67
  timerOn := true
  animations := [("anim-1", fadeBBScn)]
  idCounter := 2

/-- A concrete non-looping rainbow animation of duration 1000 ms. -/
def rainbowScn : InternalAnimation where
  id := "anim-1"
  type := .rainbow
  position := ⟨0, 0, 0⟩
  options :=
    { duration := 1000
      loop := false
      fps := 15
      flashColor := "#FFFFFF"
      intervals := 1
      fromColor := "#000000"
      toColor := "#000000"
      saturation := 1
      lightness := 1/2 }
  startTime := 0
  originalStyle := { bgcolor := some "#000000" }
  lastSentBg := none

/-- An animator state holding exactly `rainbowScn`, ticker running. -/
def rainbowSt : AnimatorState where
  fps := 15
  tickInterval := 67
  timerOn := true
  animations := [("anim-1", rainbowScn)]
  idCounter := 2

/-- The concrete flash of the spec's scenario: duration 1000 ms, two
intervals, white flash color over a black base, non-looping. -/
def flashScn : InternalAnimation where
  id := "anim-1"
  type := .flash
  position := ⟨0, 0, 0⟩
  options :=
    { duration := 1000
      loop := false
      fps := 15
      flashColor := "#FFFFFF"
      intervals := 2
      fromColor := "#000000"
      toColor := "#000000"
      saturation := 1
      lightness := 1/2 }
  startTime := 0
  originalStyle := { bgcolor := some "#000000" }
  lastSentBg := none

/-- An animator state holding exactly `flashScn`, ticker running. -/
def flashSt : AnimatorState where
  fps := 15
  tickInterval := 67
  timerOn := true
  animations := [("anim-1", flashScn)]
  idCounter := 2

/-- The character codes matched by `[a-f\d]` with the `i` flag: `0`-`9`,
`a`-`f`, `A`-`F`. -/
def hexDigitNats : List ℕ :=
  [48, 49, 50, 51, 52, 53, 54, 55, 56, 57,
   97, 98, 99, 100, 101, 102, 65, 66, 67, 68, 69, 70]

/-- The 22 hex-digit characters. -/
def hexDigitChars : List Char := hexDigitNats.map Char.ofNat

/-- Decidable check that printing `n` as two hex digits (then uppercasing, as
`rgbToHex` does) parses back to `n`. -/
def hexPairOk (n : ℕ) : Bool :=
  match (toHexPair n).map Char.toUpper with
  | [c1, c2] =>
    isHexDigit c1 && isHexDigit c2 && (16 * hexVal c1 + hexVal c2 == n)
  | _ => false

/-! ## Helper lemmas -/

/-- The entry just stored by `Map.set` is in the map. -/
theorem mapSet_mem (m : List (String × InternalAnimation)) (k : String)
    (v : InternalAnimation) : (k, v) ∈ mapSet m k v := by
  unfold mapSet
  split
  · rename_i h
    rcases List.any_eq_true.mp h with ⟨p, hp, hk⟩
    exact List.mem_map.mpr ⟨p, hp, by simp [hk]⟩
  · simp

/-- `Animator.start` never touches the registry. -/
theorem startTimer_animations (st : AnimatorState) :
    (startTimer st).animations = st.animations := by
  unfold startTimer
  split <;> rfl

/-- `Animator.start` leaves the timer running. -/
theorem startTimer_timerOn (st : AnimatorState) :
    (startTimer st).timerOn = true := by
  unfold startTimer
  split
  · assumption
  · rfl

/-- The shared builder tail registers an entry carrying exactly the filled
options, base style and start time it was given. -/
theorem create_mem (ty : AnimationType) (opts : FilledAnimationOptions)
    (now : ℚ) (pos : ButtonPosition) (style : ButtonStyle)
    (st : AnimatorState) :
    ∃ p ∈ (createAnim ty opts now pos style st).2.animations,
      p.2.type = ty ∧ p.2.options = opts ∧ p.2.originalStyle = style
        ∧ p.2.startTime = now ∧ p.2.lastSentBg = none := by
  unfold createAnim
  rw [startTimer_animations]
  exact ⟨_, mapSet_mem _ _ _, rfl, rfl, rfl, rfl, rfl⟩

/-- Evaluate `⌊q⌋` from rational bounds. -/
theorem floor_eval (q : ℚ) (n : ℤ) (h1 : (n : ℚ) ≤ q) (h2 : q < n + 1) :
    ⌊q⌋ = n :=
  Int.floor_eq_iff.mpr ⟨h1, h2⟩

/-- Evaluate `Math.round` (`round`) from rational bounds. -/
theorem round_eval (q : ℚ) (n : ℤ) (h1 : (n : ℚ) ≤ q + 1 / 2)
    (h2 : q + 1 / 2 < n + 1) : round q = n := by
  rw [round_eq]
  exact floor_eval _ _ h1 h2

/-- Evaluate `jsTrunc` on a non-negative rational. -/
theorem jsTrunc_eval (q : ℚ) (n : ℤ) (h0 : 0 ≤ q) (h1 : (n : ℚ) ≤ q)
    (h2 : q < n + 1) : jsTrunc q = n := by
  unfold jsTrunc
  rw [if_pos h0]
  exact floor_eval _ _ h1 h2

/-- Evaluate the animator's `clamp` from rational bounds on the rounded
value. -/
theorem clamp_eval (q : ℚ) (n : ℤ) (h1 : (n : ℚ) ≤ q + 1 / 2)
    (h2 : q + 1 / 2 < n + 1) (h0 : 0 ≤ n) (h255 : n ≤ 255) : clamp q = n := by
  unfold clamp
  rw [round_eval q n h1 h2]
  omega

/-- Evaluate `mixColors` once both endpoints parse and the three clamped
channels are known. -/
theorem mixColors_eval (A B : String) (a1 a2 a3 b1 b2 b3 : ℕ) (t : ℚ)
    (r g b : ℤ) (hA : hexToRgb A = some (a1, a2, a3))
    (hB : hexToRgb B = some (b1, b2, b3))
    (hr : clamp ((a1 : ℚ) + ((b1 : ℚ) - (a1 : ℚ)) * t) = r)
    (hg : clamp ((a2 : ℚ) + ((b2 : ℚ) - (a2 : ℚ)) * t) = g)
    (hb : clamp ((a3 : ℚ) + ((b3 : ℚ) - (a3 : ℚ)) * t) = b) :
    mixColors A B t = rgbToHex (r : ℚ) (g : ℚ) (b : ℚ) := by
  unfold mixColors
  rw [hA, hB]
  simp only [Option.getD_some]
  rw [hr, hg, hb]

/-- `rgbToHex` on integer channels already in `[0, 255]` only encodes. -/
theorem rgbToHex_int (r g b : ℤ) (hr0 : 0 ≤ r) (hr : r ≤ 255) (hg0 : 0 ≤ g)
    (hg : g ≤ 255) (hb0 : 0 ≤ b) (hb : b ≤ 255) :
    rgbToHex (r : ℚ) (g : ℚ) (b : ℚ)
      = jsToUpperCase (String.mk ('#' :: (toHexPair r.toNat
          ++ toHexPair g.toNat ++ toHexPair b.toNat))) := by
  have key : ∀ n : ℤ, 0 ≤ n → n ≤ 255 →
      (round (max 0 (min 255 ((n : ℤ) : ℚ)))).toNat = n.toNat := by
    intro n h0 h255
    rw [min_eq_right (by exact_mod_cast h255 : ((n : ℤ) : ℚ) ≤ 255),
      max_eq_right (by exact_mod_cast h0 : (0 : ℚ) ≤ ((n : ℤ) : ℚ)),
      round_intCast]
  simp only [rgbToHex, key r hr0 hr, key g hg0 hg, key b hb0 hb]

/-- The black-to-black interpolation is black at every parameter. -/
theorem mixColors_black_black (t : ℚ) :
    mixColors "#000000" "#000000" t = "#000000" := by
  have h0 : clamp (((0 : ℕ) : ℚ) + (((0 : ℕ) : ℚ) - ((0 : ℕ) : ℚ)) * t)
      = 0 := by
    have he : ((0 : ℕ) : ℚ) + (((0 : ℕ) : ℚ) - ((0 : ℕ) : ℚ)) * t = 0 := by
      push_cast
      ring
    rw [he]
    exact clamp_eval 0 0 (by norm_num) (by norm_num) (by norm_num)
      (by norm_num)
  rw [mixColors_eval "#000000" "#000000" 0 0 0 0 0 0 t 0 0 0 rfl rfl h0 h0 h0,
    rgbToHex_int 0 0 0 (by norm_num) (by norm_num) (by norm_num) (by norm_num)
      (by norm_num) (by norm_num)]
  rfl

/-- Unfolding of `nextBg` on a fade animation. -/
theorem nextBg_fade (now : ℚ) (a : InternalAnimation) (h : a.type = .fade) :
    nextBg now a = mixColors a.options.fromColor a.options.toColor
      (if a.options.loop then
        jsMod (now - a.startTime) a.options.duration / a.options.duration
      else min 1 ((now - a.startTime) / a.options.duration)) := by
  unfold nextBg
  rw [h]

/-- Unfolding of `nextBg` on a rainbow animation: the hue always wraps
`elapsed` modulo the duration, whatever the `loop` flag. -/
theorem nextBg_rainbow (now : ℚ) (a : InternalAnimation)
    (h : a.type = .rainbow) :
    nextBg now a = hslToHex
      ((⌊jsMod (now - a.startTime) a.options.duration / a.options.duration
          * 360⌋ : ℤ) : ℚ)
      a.options.saturation a.options.lightness := by
  unfold nextBg
  rw [h]

/-- Unfolding of `nextBg` on a flash animation. -/
theorem nextBg_flash (now : ℚ) (a : InternalAnimation) (h : a.type = .flash) :
    nextBg now a = mixColorsR (a.originalStyle.bgcolor.getD "#000000")
      a.options.flashColor
      (flashFactor
        (if a.options.loop then
          jsMod (now - a.startTime) a.options.duration / a.options.duration
        else min 1 ((now - a.startTime) / a.options.duration))
        (flashRepeats a)) := by
  unfold nextBg
  rw [h]

/-- `tickOne` when the computed color is known and nothing was sent yet:
one op is emitted and the color is recorded. -/
theorem tickOne_fresh (t : ℚ) (a : InternalAnimation) (c : String)
    (hc : nextBg t a = c) (hl : a.lastSentBg = none) :
    tickOne t a =
      (if ¬ a.options.loop = true ∧ a.options.duration ≤ t - a.startTime then
        none
      else some { a with lastSentBg := some c },
        [{ position := a.position,
           data := { a.originalStyle with bgcolor := some c } }]) := by
  unfold tickOne
  rw [hc, hl]
  by_cases hcond : ¬ a.options.loop = true
      ∧ a.options.duration ≤ t - a.startTime
  · simp only [if_pos hcond]
  · simp only [if_neg hcond]

/-- `tickOne` when the computed color is known and equals the last sent one:
no op is emitted. -/
theorem tickOne_same (t : ℚ) (a : InternalAnimation) (c : String)
    (hc : nextBg t a = c) (hl : a.lastSentBg = some c) :
    tickOne t a =
      (if ¬ a.options.loop = true ∧ a.options.duration ≤ t - a.startTime then
        none
      else some a, []) := by
  unfold tickOne
  rw [hc, hl]
  have hce : colorsEqual c c = true := by
    unfold colorsEqual
    exact beq_self_eq_true _
  by_cases hcond : ¬ a.options.loop = true
      ∧ a.options.duration ≤ t - a.startTime
  · simp only [hce, ite_true, if_pos hcond]
  · simp only [hce, ite_true, if_neg hcond]

/-- `tick` over a single-animation registry whose animation retires. -/
theorem tick_single_removed (t : ℚ) (st : AnimatorState) (i : String)
    (a : InternalAnimation) (h : st.animations = [(i, a)])
    (h2 : (tickOne t a).1 = none) :
    tick t st = ({ st with animations := [] }, (tickOne t a).2) := by
  unfold tick
  rw [h]
  simp only [List.isEmpty_cons, tickList, h2, List.append_nil]
  rfl

/-- `tick` over a single-animation registry whose animation survives. -/
theorem tick_single_kept (t : ℚ) (st : AnimatorState) (i : String)
    (a a2 : InternalAnimation) (h : st.animations = [(i, a)])
    (h2 : (tickOne t a).1 = some a2) :
    tick t st = ({ st with animations := [(i, a2)] }, (tickOne t a).2) := by
  unfold tick
  rw [h]
  simp only [List.isEmpty_cons, tickList, h2, List.append_nil]
  rfl

/-- `tick` on an empty registry stops the timer and emits nothing. -/
theorem tick_empty (t : ℚ) (st : AnimatorState) (h : st.animations = []) :
    tick t st = (stopTimer st, []) := by
  unfold tick
  rw [h]
  rfl

end StreamDeck

namespace StreamDeck

/-! ## C1: builder duration validation -/

/-- C1 counterexample: `createFlash` with `duration = 0` does not reject; it
adds a registry entry whose stored duration is `0`, so not every registered
animation has `durationMs > 0`. -/
theorem createFlash_zero_duration_counterexample :
    ((createFlash 0 ⟨0, 0, 0⟩ {} { duration := some 0 }
        (mkAnimator 15)).2.animations.map (fun p => p.2.options.duration))
      = [0]
    ∧ (createFlash 0 ⟨0, 0, 0⟩ {} { duration := some 0 }
        (mkAnimator 15)).2.animations.length = 1
    ∧ ¬ (∀ p ∈ (createFlash 0 ⟨0, 0, 0⟩ {} { duration := some 0 }
        (mkAnimator 15)).2.animations, 0 < p.2.options.duration) := by
  refine ⟨rfl, rfl, fun h => ?_⟩
  have hm : ((createFlash 0 ⟨0, 0, 0⟩ {} { duration := some 0 }
      (mkAnimator 15)).2.animations.map (fun p => p.2.options.duration))
      = [0] := rfl
  rcases hl : (createFlash 0 ⟨0, 0, 0⟩ {} { duration := some 0 }
      (mkAnimator 15)).2.animations with _ | ⟨p, rest⟩
  · rw [hl] at hm
    simp at hm
  · rw [hl] at hm
    simp only [List.map_cons, List.cons.injEq] at hm
    have hp := h p (by rw [hl]; exact List.mem_cons_self _ _)
    rw [hm.1] at hp
    exact lt_irrefl 0 hp

/-- C1 (amended): none of the three builders validates the duration; a call
with a non-positive `duration` still stores a registry entry carrying that
duration, so the registry can hold animations with `durationMs ≤ 0`. -/
theorem builders_accept_nonpositive_duration (now : ℚ) (pos : ButtonPosition)
    (style : ButtonStyle) (st : AnimatorState) (d : ℚ) (_hd : d ≤ 0) :
    (∃ p ∈ (createFlash now pos style { duration := some d } st).2.animations,
      p.2.options.duration = d)
    ∧ (∃ p ∈ (createFade now pos style { duration := some d } st).2.animations,
      p.2.options.duration = d)
    ∧ (∃ p ∈ (createRainbow now pos style { duration := some d }
        st).2.animations, p.2.options.duration = d) := by
  obtain ⟨p1, hp1, -, ho1, -⟩ := create_mem .flash
    (defaultsFlash { duration := some d } st.fps) now pos style st
  obtain ⟨p2, hp2, -, ho2, -⟩ := create_mem .fade
    (defaultsFade { duration := some d } style st.fps) now pos style st
  obtain ⟨p3, hp3, -, ho3, -⟩ := create_mem .rainbow
    (defaultsRainbow { duration := some d } st.fps) now pos style st
  exact ⟨⟨p1, hp1, by rw [ho1]; rfl⟩, ⟨p2, hp2, by rw [ho2]; rfl⟩,
    ⟨p3, hp3, by rw [ho3]; rfl⟩⟩

/-- C1 witness: instantiation at duration `-5`. -/
theorem builders_accept_nonpositive_duration_witness :
    ((-5 : ℚ) ≤ 0)
    ∧ (∃ p ∈ (createFlash 0 ⟨0, 0, 0⟩ {} { duration := some (-5) }
        (mkAnimator 15)).2.animations, p.2.options.duration = -5) :=
  ⟨by norm_num,
    (builders_accept_nonpositive_duration 0 ⟨0, 0, 0⟩ {} (mkAnimator 15) (-5)
      (by norm_num)).1⟩

/-! ## C4: flash intervals default -/

/-- C4 counterexample: a direct `createFlash` call with no `intervals` option
stores `intervals = 4`, not `2`. -/
theorem flash_default_intervals_counterexample :
    ((createFlash 0 ⟨0, 0, 0⟩ {} {} (mkAnimator 15)).2.animations.map
        (fun p => p.2.options.intervals)) = [4]
    ∧ ((createFlash 0 ⟨0, 0, 0⟩ {} {} (mkAnimator 15)).2.animations.map
        (fun p => p.2.options.intervals)) ≠ [2] := by
  refine ⟨rfl, fun h => ?_⟩
  rw [show ((createFlash 0 ⟨0, 0, 0⟩ {} {} (mkAnimator 15)).2.animations.map
    (fun p => p.2.options.intervals)) = [4] from rfl] at h
  have : (4 : ℚ) = 2 := by injection h
  norm_num at this

/-- C4 (amended): `Animator.createFlash` defaults omitted `intervals` to `4`;
the fluent `ButtonChain.animate` flash path defaults omitted `intervals` to
`2` before calling `createFlash`; and the effective oscillation count used by
the tick interpolation, `flashRepeats = max 1 intervals`, is always at least
`1`. -/
theorem flash_intervals_defaults (now : ℚ) (pos : ButtonPosition)
    (style : ButtonStyle) (o : AnimationOptions) (st : AnimatorState)
    (h : o.intervals = none) (target : ButtonStyle) (d : ℚ)
    (fc : Option String) (a : InternalAnimation) :
    (∃ p ∈ (createFlash now pos style o st).2.animations,
      p.2.type = .flash ∧ p.2.options.intervals = 4)
    ∧ (∃ p ∈ (animateLoopFlash now pos target d fc none st).2.animations,
      p.2.type = .flash ∧ p.2.options.intervals = 2)
    ∧ 1 ≤ flashRepeats a := by
  obtain ⟨p1, hp1, ht1, ho1, -⟩ := create_mem .flash
    (defaultsFlash o st.fps) now pos style st
  obtain ⟨p2, hp2, ht2, ho2, -⟩ := create_mem .flash
    (defaultsFlash
      { duration := some d, loop := some true,
        flashColor := some ((fc.or target.bgcolor).getD "#FFFFFF"),
        intervals := some ((none : Option ℚ).getD 2) } st.fps)
      now pos target st
  refine ⟨⟨p1, hp1, ht1, ?_⟩, ⟨p2, hp2, ht2, ?_⟩, le_max_left _ _⟩
  · rw [ho1]
    simp [defaultsFlash, h]
  · rw [ho2]
    rfl

/-- C4 witness: instantiation at empty options. -/
theorem flash_intervals_defaults_witness :
    (∃ p ∈ (createFlash 0 ⟨0, 0, 0⟩ {} {} (mkAnimator 15)).2.animations,
      p.2.type = .flash ∧ p.2.options.intervals = 4)
    ∧ (∃ p ∈ (animateLoopFlash 0 ⟨0, 0, 0⟩ {} 1000 none none
        (mkAnimator 15)).2.animations,
      p.2.type = .flash ∧ p.2.options.intervals = 2) :=
  ⟨(flash_intervals_defaults 0 ⟨0, 0, 0⟩ {} {} (mkAnimator 15) rfl {} 1000
      none
      { id := "x", type := .flash, position := ⟨0, 0, 0⟩,
        options := defaultsFlash {} 15, startTime := 0,
        originalStyle := {} }).1,
    (flash_intervals_defaults 0 ⟨0, 0, 0⟩ {} {} (mkAnimator 15) rfl {} 1000
      none
      { id := "x", type := .flash, position := ⟨0, 0, 0⟩,
        options := defaultsFlash {} 15, startTime := 0,
        originalStyle := {} }).2.1⟩

/-! ## C10: fade fromColor default -/

/-- C10: a `createFade` call whose options omit `fromColor` stores a fade that
starts from the caller-supplied base style's background color, and from
`#000000` exactly when the base style has no background color. -/
theorem createFade_fromColor_default (now : ℚ) (pos : ButtonPosition)
    (style : ButtonStyle) (o : AnimationOptions) (st : AnimatorState)
    (h : o.fromColor = none) :
    ∃ p ∈ (createFade now pos style o st).2.animations,
      p.2.type = .fade
      ∧ p.2.options.fromColor = style.bgcolor.getD "#000000"
      ∧ (∀ c, style.bgcolor = some c → p.2.options.fromColor = c)
      ∧ (style.bgcolor = none → p.2.options.fromColor = "#000000") := by
  obtain ⟨p, hp, ht, ho, -⟩ := create_mem .fade (defaultsFade o style st.fps)
    now pos style st
  refine ⟨p, hp, ht, ?_, ?_, ?_⟩
  · rw [ho]
    simp [defaultsFade, h]
  · intro c hc
    rw [ho]
    simp [defaultsFade, h, hc]
  · intro hc
    rw [ho]
    simp [defaultsFade, h, hc]

/-- C10 witness: instantiation with a base style whose background is red. -/
theorem createFade_fromColor_default_witness :
    ∃ p ∈ (createFade 0 ⟨0, 0, 0⟩ { bgcolor := some "#FF0000" } {}
        (mkAnimator 15)).2.animations,
      p.2.type = .fade
      ∧ p.2.options.fromColor
          = (({ bgcolor := some "#FF0000" } : ButtonStyle)).bgcolor.getD
            "#000000"
      ∧ (∀ c, (({ bgcolor := some "#FF0000" } : ButtonStyle)).bgcolor = some c
          → p.2.options.fromColor = c)
      ∧ ((({ bgcolor := some "#FF0000" } : ButtonStyle)).bgcolor = none
          → p.2.options.fromColor = "#000000") :=
  createFade_fromColor_default 0 ⟨0, 0, 0⟩ { bgcolor := some "#FF0000" } {}
    (mkAnimator 15) rfl

/-! ## C2: ticker lifecycle -/

/-- C2 counterexample: create a non-looping fade of duration `1` and tick past
its end.  The animation retires, leaving the registry empty, yet the timer is
still set — the ticker is running with an empty registry, and one further
(empty) tick will fire. -/
theorem ticker_empty_registry_counterexample :
    (createFade 0 ⟨0, 0, 0⟩ {} { duration := some 1 }
        (mkAnimator 15)).2.timerOn = true
    ∧ (tick 1 (createFade 0 ⟨0, 0, 0⟩ {} { duration := some 1 }
        (mkAnimator 15)).2).1.animations = []
    ∧ (tick 1 (createFade 0 ⟨0, 0, 0⟩ {} { duration := some 1 }
        (mkAnimator 15)).2).1.timerOn = true := by
  have hA : (createFade 0 ⟨0, 0, 0⟩ {} { duration := some 1 }
      (mkAnimator 15)).2.animations =
      [("anim-1",
        { id := "anim-1", type := .fade, position := ⟨0, 0, 0⟩,
          options := defaultsFade { duration := some 1 } {}
            (mkAnimator 15).fps,
          startTime := 0, originalStyle := {}, lastSentBg := none })] := rfl
  have hnb : nextBg 1
      ({ id := "anim-1", type := .fade, position := ⟨0, 0, 0⟩,
         options := defaultsFade { duration := some 1 } {}
           (mkAnimator 15).fps,
         startTime := 0, originalStyle := {}, lastSentBg := none }
        : InternalAnimation) = "#000000" := by
    rw [nextBg_fade _ _ rfl]
    exact mixColors_black_black _
  have hone : (tickOne 1
      ({ id := "anim-1", type := .fade, position := ⟨0, 0, 0⟩,
         options := defaultsFade { duration := some 1 } {}
           (mkAnimator 15).fps,
         startTime := 0, originalStyle := {}, lastSentBg := none }
        : InternalAnimation)).1 = none := by
    rw [tickOne_fresh _ _ "#000000" hnb rfl]
    rw [if_pos ⟨by simp [defaultsFade], by
      show (defaultsFade { duration := some 1 } {} 15).duration ≤ 1 - 0
      norm_num [defaultsFade]⟩]
  have htick := tick_single_removed 1
    (createFade 0 ⟨0, 0, 0⟩ {} { duration := some 1 } (mkAnimator 15)).2
    "anim-1" _ hA hone
  refine ⟨?_, ?_, ?_⟩
  · exact startTimer_timerOn _
  · rw [htick]
  · rw [htick]
    exact startTimer_timerOn _

/-- C2 (amended): each builder leaves the ticker running on a non-empty
registry; `stopAnimation` preserves "ticker running iff registry non-empty";
`stopAll` stops the ticker and empties the registry; a tick on an empty
registry stops the timer and emits nothing.  However, when the last animation
retires during a tick the timer stays set for exactly one further tick, which
finds the registry empty, dispatches no operations, and stops the timer — so
no transport call ever follows the retirement. -/
theorem ticker_lifecycle_amended :
    (∀ (now : ℚ) (pos : ButtonPosition) (style : ButtonStyle)
        (o : AnimationOptions) (st : AnimatorState),
      ((createFlash now pos style o st).2.timerOn = true
        ∧ (createFlash now pos style o st).2.animations ≠ [])
      ∧ ((createFade now pos style o st).2.timerOn = true
        ∧ (createFade now pos style o st).2.animations ≠ [])
      ∧ ((createRainbow now pos style o st).2.timerOn = true
        ∧ (createRainbow now pos style o st).2.animations ≠ []))
    ∧ (∀ (id : String) (st : AnimatorState),
        st.timerOn = !st.animations.isEmpty →
        (stopAnimation id st).timerOn
          = !(stopAnimation id st).animations.isEmpty)
    ∧ (∀ st : AnimatorState,
        (stopAll st).timerOn = false ∧ (stopAll st).animations = [])
    ∧ (∀ (t : ℚ) (st : AnimatorState), st.animations = [] →
        tick t st = (stopTimer st, []))
    ∧ (∀ (t t' : ℚ) (st : AnimatorState), (tick t st).1.animations = [] →
        (tick t' (tick t st).1).1.timerOn = false
          ∧ (tick t' (tick t st).1).2 = []) := by
  refine ⟨?_, ?_, ?_, tick_empty, ?_⟩
  · intro now pos style o st
    refine ⟨⟨startTimer_timerOn _, ?_⟩, ⟨startTimer_timerOn _, ?_⟩,
      ⟨startTimer_timerOn _, ?_⟩⟩
    · obtain ⟨p, hp, -⟩ := create_mem .flash (defaultsFlash o st.fps) now pos
        style st
      exact List.ne_nil_of_mem hp
    · obtain ⟨p, hp, -⟩ := create_mem .fade (defaultsFade o style st.fps) now
        pos style st
      exact List.ne_nil_of_mem hp
    · obtain ⟨p, hp, -⟩ := create_mem .rainbow (defaultsRainbow o st.fps) now
        pos style st
      exact List.ne_nil_of_mem hp
  · intro id st h
    unfold stopAnimation
    by_cases he : (mapDelete st.animations id).isEmpty
    · rw [if_pos he]
      simp [stopTimer, he]
    · rw [if_neg he]
      have hne : st.animations.isEmpty = false := by
        cases hst : st.animations with
        | nil =>
          exact absurd (by rw [hst]; rfl : (mapDelete st.animations id).isEmpty
            = true) (by simpa using he)
        | cons p rest => rfl
      show st.timerOn = !(mapDelete st.animations id).isEmpty
      rw [h, hne]
      simp [he]
  · intro st
    exact ⟨rfl, rfl⟩
  · intro t t' st h
    rw [tick_empty t' _ h]
    exact ⟨rfl, rfl⟩

/-- C2 witness: instantiations of the amended lifecycle conjuncts at concrete
states. -/
theorem ticker_lifecycle_witness :
    ((stopAnimation "anim-1"
        (createFade 0 ⟨0, 0, 0⟩ {} {} (mkAnimator 15)).2).timerOn
      = !(stopAnimation "anim-1"
        (createFade 0 ⟨0, 0, 0⟩ {} {} (mkAnimator 15)).2).animations.isEmpty)
    ∧ tick 5 (mkAnimator 15) = (stopTimer (mkAnimator 15), [])
    ∧ ((tick 7 (tick 5 (mkAnimator 15)).1).1.timerOn = false
        ∧ (tick 7 (tick 5 (mkAnimator 15)).1).2 = []) :=
  ⟨ticker_lifecycle_amended.2.1 "anim-1"
      (createFade 0 ⟨0, 0, 0⟩ {} {} (mkAnimator 15)).2 rfl,
    ticker_lifecycle_amended.2.2.2.1 5 (mkAnimator 15) rfl,
    ticker_lifecycle_amended.2.2.2.2 5 7 (mkAnimator 15)
      (by rw [tick_empty 5 (mkAnimator 15) rfl]; rfl)⟩

/-! ## C6: no-op suppression for a black-to-black fade -/

/-- A fade between two black endpoints computes black at every tick. -/
theorem nextBg_fadeBB (t : ℚ) (a : InternalAnimation) (ht : a.type = .fade)
    (hf : a.options.fromColor = "#000000")
    (hto : a.options.toColor = "#000000") : nextBg t a = "#000000" := by
  rw [nextBg_fade _ _ ht, hf, hto]
  exact mixColors_black_black _

/-- Once black has been sent, every further tick emits nothing and preserves
the invariant. -/
theorem tick_SentBlackInv (i : String) (st : AnimatorState) (t : ℚ)
    (h : SentBlackInv i st) :
    (tick t st).2 = [] ∧ SentBlackInv i (tick t st).1 := by
  rcases h with h | ⟨a, hA, ht, hf, hto, hl⟩
  · rw [tick_empty t st h]
    exact ⟨rfl, Or.inl h⟩
  · have hnb := nextBg_fadeBB t a ht hf hto
    have hone := tickOne_same t a "#000000" hnb hl
    have hops : (tickOne t a).2 = [] := by rw [hone]
    by_cases hcond : ¬ a.options.loop = true
        ∧ a.options.duration ≤ t - a.startTime
    · have h1 : (tickOne t a).1 = none := by rw [hone, if_pos hcond]
      rw [tick_single_removed t st i a hA h1]
      exact ⟨hops, Or.inl rfl⟩
    · have h1 : (tickOne t a).1 = some a := by rw [hone, if_neg hcond]
      rw [tick_single_kept t st i a a hA h1]
      exact ⟨hops, Or.inr ⟨a, rfl, ht, hf, hto, hl⟩⟩

/-- From an invariant state, every batch of every further tick is empty. -/
theorem runTicks_SentBlackInv (i : String) (ts : List ℚ) :
    ∀ st : AnimatorState, SentBlackInv i st →
      ∀ b ∈ (runTicks ts st).2, b = [] := by
  induction ts with
  | nil =>
    intro st _ b hb
    simp [runTicks] at hb
  | cons t rest ih =>
    intro st h b hb
    obtain ⟨h1, h2⟩ := tick_SentBlackInv i st t h
    simp only [runTicks] at hb
    rcases List.mem_cons.mp hb with hb | hb
    · rw [hb, h1]
    · exact ih (tick t st).1 h2 b hb

/-- The first tick of a fresh black-to-black fade emits exactly one op and
establishes the invariant. -/
theorem tick_fadeBB_first (i : String) (a : InternalAnimation)
    (st : AnimatorState) (t : ℚ) (hA : st.animations = [(i, a)])
    (ht : a.type = .fade) (hf : a.options.fromColor = "#000000")
    (hto : a.options.toColor = "#000000") (hl : a.lastSentBg = none) :
    (tick t st).2.length = 1 ∧ SentBlackInv i (tick t st).1 := by
  have hnb := nextBg_fadeBB t a ht hf hto
  have hone := tickOne_fresh t a "#000000" hnb hl
  have hops : (tickOne t a).2 =
      [{ position := a.position,
         data := { a.originalStyle with bgcolor := some "#000000" } }] := by
    rw [hone]
  by_cases hcond : ¬ a.options.loop = true
      ∧ a.options.duration ≤ t - a.startTime
  · have h1 : (tickOne t a).1 = none := by rw [hone, if_pos hcond]
    rw [tick_single_removed t st i a hA h1]
    exact ⟨by rw [hops]; rfl, Or.inl rfl⟩
  · have h1 : (tickOne t a).1 = some { a with lastSentBg := some "#000000" } :=
      by rw [hone, if_neg hcond]
    rw [tick_single_kept t st i a _ hA h1]
    exact ⟨by rw [hops]; rfl,
      Or.inr ⟨{ a with lastSentBg := some "#000000" }, rfl, ht, hf, hto, rfl⟩⟩

/-- C6: for a fade whose `fromColor` and `toColor` are both `#000000`, at most
one batch write is dispatched over the animation's whole lifetime: the first
tick (no `lastSentBg` yet) emits exactly one op, and every later tick is
suppressed because the computed color equals `lastSentBg`. -/
theorem fade_identical_endpoints_single_write (i : String)
    (a : InternalAnimation) (st : AnimatorState) (ts : List ℚ)
    (hA : st.animations = [(i, a)]) (ht : a.type = .fade)
    (hf : a.options.fromColor = "#000000")
    (hto : a.options.toColor = "#000000") (hl : a.lastSentBg = none) :
    ((runTicks ts st).2.filter (fun b => !b.isEmpty)).length ≤ 1
    ∧ (∀ (t : ℚ) (ts' : List ℚ), ts = t :: ts' →
        (tick t st).2.length = 1) := by
  constructor
  · cases ts with
    | nil => simp [runTicks]
    | cons t rest =>
      obtain ⟨h1, h2⟩ := tick_fadeBB_first i a st t hA ht hf hto hl
      have hrest := runTicks_SentBlackInv i rest (tick t st).1 h2
      simp only [runTicks]
      rw [List.filter_cons]
      have hrest0 : ((runTicks rest (tick t st).1).2.filter
          (fun b => !b.isEmpty)) = [] := by
        rw [List.filter_eq_nil_iff]
        intro b hb
        rw [hrest b hb]
        simp
      split
      · rw [hrest0]
        simp
      · rw [hrest0]
        simp
  · intro t ts' _hts
    exact (tick_fadeBB_first i a st t hA ht hf hto hl).1

/-- C6 witness: the black-to-black fade over three ticks. -/
theorem fade_identical_endpoints_single_write_witness :
    ((runTicks [0, 1, 2] fadeBBSt).2.filter (fun b => !b.isEmpty)).length ≤ 1
    ∧ (∀ (t : ℚ) (ts' : List ℚ), [0, 1, 2] = t :: ts' →
        (tick t fadeBBSt).2.length = 1) :=
  fade_identical_endpoints_single_write "anim-1" fadeBBScn fadeBBSt [0, 1, 2]
    rfl rfl rfl rfl rfl

/-! ## C5: non-looping rainbow -/

/-- Concrete evaluation: hue 180 at full saturation, half lightness, is
cyan. -/
theorem hslToHex_180 : hslToHex 180 1 (1/2) = "#00FFFF" := by
  have hh3 : jsMod ((180 : ℚ) / 60) 6 = 3 := by
    unfold jsMod
    rw [jsTrunc_eval ((180 : ℚ) / 60 / 6) 0 (by norm_num) (by norm_num)
      (by norm_num)]
    norm_num
  have hh2 : jsMod (3 : ℚ) 2 = 1 := by
    unfold jsMod
    rw [jsTrunc_eval ((3 : ℚ) / 2) 1 (by norm_num) (by norm_num) (by norm_num)]
    norm_num
  have c0 : clamp 0 = 0 := clamp_eval 0 0 (by norm_num) (by norm_num)
    (by norm_num) (by norm_num)
  have c255 : clamp 255 = 255 := clamp_eval 255 255 (by norm_num) (by norm_num)
    (by norm_num) (by norm_num)
  unfold hslToHex
  simp only [hh3, hh2]
  norm_num
  rw [c0, c255, rgbToHex_int 0 255 255 (by norm_num) (by norm_num)
    (by norm_num) (by norm_num) (by norm_num) (by norm_num)]
  decide

/-- Concrete evaluation: hue 360 at full saturation, half lightness, is red
(the hue wraps modulo 360 through `(h/60) % 6`). -/
theorem hslToHex_360 : hslToHex 360 1 (1/2) = "#FF0000" := by
  have hh6 : jsMod ((360 : ℚ) / 60) 6 = 0 := by
    unfold jsMod
    rw [jsTrunc_eval ((360 : ℚ) / 60 / 6) 1 (by norm_num) (by norm_num)
      (by norm_num)]
    norm_num
  have hh0 : jsMod (0 : ℚ) 2 = 0 := by
    unfold jsMod
    rw [jsTrunc_eval ((0 : ℚ) / 2) 0 (by norm_num) (by norm_num) (by norm_num)]
    norm_num
  have c0 : clamp 0 = 0 := clamp_eval 0 0 (by norm_num) (by norm_num)
    (by norm_num) (by norm_num)
  have c255 : clamp 255 = 255 := clamp_eval 255 255 (by norm_num) (by norm_num)
    (by norm_num) (by norm_num)
  unfold hslToHex
  simp only [hh6, hh0]
  norm_num
  rw [c0, c255, rgbToHex_int 255 0 0 (by norm_num) (by norm_num) (by norm_num)
    (by norm_num) (by norm_num) (by norm_num)]
  decide

/-- The wrapped remainder at `elapsed = 1500`, `duration = 1000`. -/
theorem jsMod_1500_1000 : jsMod 1500 1000 = 500 := by
  unfold jsMod
  rw [jsTrunc_eval ((1500 : ℚ) / 1000) 1 (by norm_num) (by norm_num)
    (by norm_num)]
  norm_num

/-- C5 counterexample: at `elapsed = 1500` on a non-looping rainbow of
duration 1000, the code computes hue `floor(((1500 mod 1000)/1000)*360) = 180`
(cyan), while the claim predicts the capped static hue `floor(min(1,
1500/1000) * 360) = 360` (red); the two colors differ. -/
theorem rainbow_progress_cap_counterexample :
    nextBg 1500 rainbowScn = hslToHex 180 1 (1/2)
    ∧ (⌊min 1 ((1500 - rainbowScn.startTime) / rainbowScn.options.duration)
        * 360⌋ : ℤ) = 360
    ∧ nextBg 1500 rainbowScn ≠ hslToHex 360 1 (1/2) := by
  have h1 : nextBg 1500 rainbowScn = hslToHex 180 1 (1/2) := by
    rw [nextBg_rainbow 1500 rainbowScn rfl]
    show hslToHex ((⌊jsMod (1500 - 0) 1000 / 1000 * 360⌋ : ℤ) : ℚ) 1 (1/2) = _
    rw [show (1500 : ℚ) - 0 = 1500 by norm_num, jsMod_1500_1000,
      show (500 : ℚ) / 1000 * 360 = 180 by norm_num,
      floor_eval 180 180 (by norm_num) (by norm_num)]
    norm_num
  refine ⟨h1, ?_, ?_⟩
  · show (⌊min 1 (((1500 : ℚ) - 0) / 1000) * 360⌋ : ℤ) = 360
    rw [show ((1500 : ℚ) - 0) / 1000 = 3/2 by norm_num,
      show min (1 : ℚ) (3/2) = 1 from min_eq_left (by norm_num)]
    exact floor_eval _ _ (by norm_num) (by norm_num)
  · rw [h1, hslToHex_180, hslToHex_360]
    decide

/-- C3/C5-style helper: any tick at or past the duration of the non-looping
`rainbowScn` retires it and still dispatches one final (wrapped) frame. -/
theorem rainbowSt_tick_past_end (now : ℚ) (h : 1000 ≤ now) :
    (tick now rainbowSt).1.animations = []
      ∧ (tick now rainbowSt).2.length = 1 := by
  have hone := tickOne_fresh now rainbowScn (nextBg now rainbowScn) rfl rfl
  have hcond : ¬ rainbowScn.options.loop = true
      ∧ rainbowScn.options.duration ≤ now - rainbowScn.startTime := by
    constructor
    · show ¬ false = true
      simp
    · show (1000 : ℚ) ≤ now - 0
      linarith
  have h1 : (tickOne now rainbowScn).1 = none := by
    rw [hone, if_pos hcond]
  rw [tick_single_removed now rainbowSt "anim-1" rainbowScn rfl h1]
  refine ⟨rfl, ?_⟩
  rw [show (tickOne now rainbowScn).2
    = [{ position := rainbowScn.position,
         data := { rainbowScn.originalStyle with
           bgcolor := some (nextBg now rainbowScn) } }] by rw [hone]]
  rfl

/-- C5 (amended): the rainbow branch always computes its hue from
`(elapsed mod duration) / duration`, ignoring the capped progress and the
`loop` flag, so a non-looping rainbow past its duration wraps back through the
hue circle instead of holding a static end hue; the non-looping animation is
nevertheless retired by the first tick with `elapsed >= duration`, which still
dispatches that final wrapped frame. -/
theorem rainbow_wraps_modulo :
    (∀ (now : ℚ) (a : InternalAnimation), a.type = .rainbow →
      nextBg now a = hslToHex
        ((⌊jsMod (now - a.startTime) a.options.duration
            / a.options.duration * 360⌋ : ℤ) : ℚ)
        a.options.saturation a.options.lightness)
    ∧ (∀ now : ℚ, 1000 ≤ now →
        (tick now rainbowSt).1.animations = []
          ∧ (tick now rainbowSt).2.length = 1) :=
  ⟨nextBg_rainbow, rainbowSt_tick_past_end⟩

/-- C5 witness: instantiation at `now = 1500`. -/
theorem rainbow_wraps_modulo_witness :
    nextBg 1500 rainbowScn = hslToHex
      ((⌊jsMod (1500 - rainbowScn.startTime) rainbowScn.options.duration
          / rainbowScn.options.duration * 360⌋ : ℤ) : ℚ)
      rainbowScn.options.saturation rainbowScn.options.lightness
    ∧ ((tick 1500 rainbowSt).1.animations = []
        ∧ (tick 1500 rainbowSt).2.length = 1) :=
  ⟨rainbow_wraps_modulo.1 1500 rainbowScn rfl,
    rainbow_wraps_modulo.2 1500 (by norm_num)⟩

/-! ## C3: flash endpoints -/

/-- At a rational interpolation parameter, the real-valued mix agrees with the
rational one. -/
theorem mixColorsR_ratCast (A B : String) (q : ℚ) :
    mixColorsR A B ((q : ℚ) : ℝ) = mixColors A B q := by
  have key : ∀ x y : ℕ,
      clampR ((x : ℝ) + ((y : ℝ) - (x : ℝ)) * ((q : ℚ) : ℝ))
        = clamp ((x : ℚ) + ((y : ℚ) - (x : ℚ)) * q) := by
    intro x y
    unfold clampR clamp
    have hc : (x : ℝ) + ((y : ℝ) - (x : ℝ)) * ((q : ℚ) : ℝ)
        = (((x : ℚ) + ((y : ℚ) - (x : ℚ)) * q : ℚ) : ℝ) := by
      push_cast
      ring
    rw [hc, Rat.round_cast]
  unfold mixColorsR mixColors
  simp only [key]

/-- The flash factor at progress 0 is `1/2`, not `0`: `sin 0 = 0` and the
factor is `0.5 * (1 + sin)`. -/
theorem flashFactor_zero : flashFactor 0 2 = ((1/2 : ℚ) : ℝ) := by
  unfold flashFactor
  rw [show ((0 : ℚ) : ℝ) * Real.pi * 2 * ((2 : ℚ) : ℝ) = 0 by push_cast; ring,
    Real.sin_zero]
  push_cast
  norm_num

/-- The flash factor at progress 1 with two intervals is `1/2`:
`sin (4π) = 0`. -/
theorem flashFactor_one : flashFactor 1 2 = ((1/2 : ℚ) : ℝ) := by
  unfold flashFactor
  rw [show ((1 : ℚ) : ℝ) * Real.pi * 2 * ((2 : ℚ) : ℝ)
      = ((4 : ℕ) : ℝ) * Real.pi by push_cast; ring,
    Real.sin_nat_mul_pi]
  push_cast
  norm_num

/-- Mixing black toward white at `1/2` gives mid grey `#808080`
(round-half-up: `round 127.5 = 128`). -/
theorem mixColors_black_white_half :
    mixColors "#000000" "#FFFFFF" (1/2) = "#808080" := by
  have hcl : clamp (((0 : ℕ) : ℚ) + (((255 : ℕ) : ℚ) - ((0 : ℕ) : ℚ)) * (1/2))
      = 128 := by
    rw [show ((0 : ℕ) : ℚ) + (((255 : ℕ) : ℚ) - ((0 : ℕ) : ℚ)) * (1/2)
      = 255/2 by push_cast; ring]
    exact clamp_eval (255/2) 128 (by norm_num) (by norm_num) (by norm_num)
      (by norm_num)
  rw [mixColors_eval "#000000" "#FFFFFF" 0 0 0 255 255 255 (1/2) 128 128 128
    rfl rfl hcl hcl hcl,
    rgbToHex_int 128 128 128 (by norm_num) (by norm_num) (by norm_num)
      (by norm_num) (by norm_num) (by norm_num)]
  decide

/-- The color `flashScn` computes at progress 1 (any tick at or past
1000 ms): mid grey, because the sine factor is `1/2` there. -/
theorem flashScn_nextBg_end (now : ℚ) (h : 1000 ≤ now) :
    nextBg now flashScn = "#808080" := by
  rw [nextBg_flash now flashScn rfl]
  show mixColorsR "#000000" "#FFFFFF"
    (flashFactor (if false = true then _ else min 1 ((now - 0) / 1000))
      (flashRepeats flashScn)) = _
  rw [if_neg (by simp : ¬ false = true),
    show min (1 : ℚ) ((now - 0) / 1000) = 1 from min_eq_left
      (by rw [le_div_iff₀ (by norm_num : (0:ℚ) < 1000)]; linarith),
    show flashRepeats flashScn = 2 by
      show max (1 : ℚ) 2 = 2
      norm_num,
    flashFactor_one, mixColorsR_ratCast, mixColors_black_white_half]

/-- The color `flashScn` computes at progress 0: also mid grey. -/
theorem flashScn_nextBg_start : nextBg 0 flashScn = "#808080" := by
  rw [nextBg_flash 0 flashScn rfl]
  show mixColorsR "#000000" "#FFFFFF"
    (flashFactor (if false = true then _ else min 1 ((0 - 0) / 1000))
      (flashRepeats flashScn)) = _
  rw [if_neg (by simp : ¬ false = true),
    show min (1 : ℚ) ((0 - 0) / 1000) = 0 by norm_num,
    show flashRepeats flashScn = 2 by
      show max (1 : ℚ) 2 = 2
      norm_num,
    flashFactor_zero, mixColorsR_ratCast, mixColors_black_white_half]

/-- C3 counterexample: with `intervalCount = 2` the computed color at
progress 0 is `#808080`, not the base `#000000` (the sine factor is
`0.5·(1+sin) = 1/2` where the sine vanishes, not `0`); and the scenario's
final dispatched color at 1000 ms is `#808080`, not `#000000` (the animation
is indeed removed). -/
theorem flash_endpoint_counterexample :
    nextBg 0 flashScn = "#808080"
    ∧ "#808080" ≠ "#000000"
    ∧ (tick 1000 flashSt).1.animations = []
    ∧ (tick 1000 flashSt).2
        = [{ position := flashScn.position,
             data := { flashScn.originalStyle with bgcolor := some "#808080" } }] := by
  have hnb := flashScn_nextBg_end 1000 (by norm_num)
  have hone := tickOne_fresh 1000 flashScn "#808080" hnb rfl
  have hcond : ¬ flashScn.options.loop = true
      ∧ flashScn.options.duration ≤ 1000 - flashScn.startTime := by
    constructor
    · show ¬ false = true
      simp
    · show (1000 : ℚ) ≤ 1000 - 0
      norm_num
  have h1 : (tickOne 1000 flashScn).1 = none := by
    rw [hone, if_pos hcond]
  rw [tick_single_removed 1000 flashSt "anim-1" flashScn rfl h1]
  refine ⟨flashScn_nextBg_start, by decide, rfl, ?_⟩
  rw [hone]

/-- C3 (amended): for `intervalCount = 2` the computed color at progress 0
and progress 1 equals `mix(base, flashColor, 1/2)` — the sine term vanishes
there but the factor `0.5·(1+sin)` is `1/2`, so the color is the midpoint
`#808080` for a black base and white flash, not the base color; a non-looping
such flash ticked at or past 1000 ms is removed from the registry and its
final dispatched color is `#808080`. -/
theorem flash_midpoint_endpoints (now : ℚ) (h : 1000 ≤ now) :
    nextBg 0 flashScn = mixColors "#000000" "#FFFFFF" (1/2)
    ∧ nextBg now flashScn = mixColors "#000000" "#FFFFFF" (1/2)
    ∧ mixColors "#000000" "#FFFFFF" (1/2) = "#808080"
    ∧ (tick now flashSt).1.animations = []
    ∧ (tick now flashSt).2
        = [{ position := flashScn.position,
             data := { flashScn.originalStyle with bgcolor := some "#808080" } }] := by
  have hnb := flashScn_nextBg_end now h
  have hone := tickOne_fresh now flashScn "#808080" hnb rfl
  have hcond : ¬ flashScn.options.loop = true
      ∧ flashScn.options.duration ≤ now - flashScn.startTime := by
    constructor
    · show ¬ false = true
      simp
    · show (1000 : ℚ) ≤ now - 0
      linarith
  have h1 : (tickOne now flashScn).1 = none := by
    rw [hone, if_pos hcond]
  rw [tick_single_removed now flashSt "anim-1" flashScn rfl h1]
  refine ⟨by rw [flashScn_nextBg_start, mixColors_black_white_half],
    by rw [hnb, mixColors_black_white_half], mixColors_black_white_half,
    rfl, ?_⟩
  rw [hone]

/-- C3 witness: instantiation at `now = 1500`. -/
theorem flash_midpoint_endpoints_witness :
    nextBg 0 flashScn = mixColors "#000000" "#FFFFFF" (1/2)
    ∧ nextBg 1500 flashScn = mixColors "#000000" "#FFFFFF" (1/2)
    ∧ mixColors "#000000" "#FFFFFF" (1/2) = "#808080"
    ∧ (tick 1500 flashSt).1.animations = []
    ∧ (tick 1500 flashSt).2
        = [{ position := flashScn.position,
             data := { flashScn.originalStyle with bgcolor := some "#808080" } }] :=
  flash_midpoint_endpoints 1500 (by norm_num)

/-! ## C9: hexToRgb / rgbToHex round trip -/

/-- Characters with equal code points are equal. -/
theorem char_eq_of_toNat {c d : Char} (h : c.toNat = d.toNat) : c = d := by
  rw [← Char.ofNat_toNat c, ← Char.ofNat_toNat d, h]

set_option maxRecDepth 4096 in
/-- Every byte value prints as two hex digits that parse back to it. -/
theorem hexPairOk_all : ∀ n, n < 256 → hexPairOk n = true := by decide

/-- Unpacked form of `hexPairOk_all`. -/
theorem hexPair_spec (n : ℕ) (h : n < 256) :
    ∃ c1 c2, (toHexPair n).map Char.toUpper = [c1, c2]
      ∧ isHexDigit c1 = true ∧ isHexDigit c2 = true
      ∧ 16 * hexVal c1 + hexVal c2 = n := by
  have hall := hexPairOk_all n h
  unfold hexPairOk at hall
  rcases hm : (toHexPair n).map Char.toUpper with _ | ⟨c1, _ | ⟨c2, _ | ⟨c3, t⟩⟩⟩
  · rw [hm] at hall
    simp at hall
  · rw [hm] at hall
    simp at hall
  · rw [hm] at hall
    simp only [Bool.and_eq_true, beq_iff_eq] at hall
    exact ⟨c1, c2, rfl, hall.1.1, hall.1.2, hall.2⟩
  · rw [hm] at hall
    simp at hall

/-- The clamping inside `rgbToHex` is the identity on channel values already
in `[0, 255]`. -/
theorem natClamp (n : ℕ) (h : n ≤ 255) :
    (round (max 0 (min 255 ((n : ℕ) : ℚ)))).toNat = n := by
  rw [min_eq_right (by exact_mod_cast h : ((n : ℕ) : ℚ) ≤ 255),
    max_eq_right (by positivity : (0 : ℚ) ≤ ((n : ℕ) : ℚ)), round_natCast]
  simp

/-- `rgbToHex` on in-range natural channels is pure encoding plus
uppercasing. -/
theorem rgbToHex_natCast (r g b : ℕ) (hr : r ≤ 255) (hg : g ≤ 255)
    (hb : b ≤ 255) :
    rgbToHex (r : ℚ) (g : ℚ) (b : ℚ)
      = String.mk (('#' :: (toHexPair r ++ toHexPair g
          ++ toHexPair b)).map Char.toUpper) := by
  simp only [rgbToHex, jsToUpperCase]
  rw [natClamp r hr, natClamp g hg, natClamp b hb]

/-- C9: `rgbToHex` always emits a `#`-prefixed six-hex-digit string which
`hexToRgb` parses back to exactly the input channels, for all integer
channels in `[0, 255]`. -/
theorem hex_rgb_roundtrip (r g b : ℕ) (hr : r ≤ 255) (hg : g ≤ 255)
    (hb : b ≤ 255) :
    hexToRgb (rgbToHex (r : ℚ) (g : ℚ) (b : ℚ)) = some (r, g, b) := by
  obtain ⟨r1, r2, hrm, hrd1, hrd2, hrv⟩ := hexPair_spec r (by omega)
  obtain ⟨g1, g2, hgm, hgd1, hgd2, hgv⟩ := hexPair_spec g (by omega)
  obtain ⟨b1, b2, hbm, hbd1, hbd2, hbv⟩ := hexPair_spec b (by omega)
  rw [rgbToHex_natCast r g b hr hg hb,
    show ('#' :: (toHexPair r ++ toHexPair g ++ toHexPair b)).map Char.toUpper
      = '#' :: ((toHexPair r).map Char.toUpper
        ++ (toHexPair g).map Char.toUpper
        ++ (toHexPair b).map Char.toUpper) by
      simp [List.map_append, (by decide : Char.toUpper '#' = '#')],
    hrm, hgm, hbm]
  show (if isHexDigit r1 && isHexDigit r2 && isHexDigit g1 && isHexDigit g2
        && isHexDigit b1 && isHexDigit b2 then
      some (16 * hexVal r1 + hexVal r2, 16 * hexVal g1 + hexVal g2,
        16 * hexVal b1 + hexVal b2)
    else none) = some (r, g, b)
  rw [hrd1, hrd2, hgd1, hgd2, hbd1, hbd2]
  simp [hrv, hgv, hbv]

/-- C9 witness: the round trip at `(18, 52, 255)`. -/
theorem hex_rgb_roundtrip_witness :
    hexToRgb (rgbToHex ((18 : ℕ) : ℚ) ((52 : ℕ) : ℚ) ((255 : ℕ) : ℚ))
      = some (18, 52, 255) :=
  hex_rgb_roundtrip 18 52 255 (by norm_num) (by norm_num) (by norm_num)

/-! ## C7: mix endpoint identities -/

/-- A character accepted by the hex-digit class is one of the 22 hex-digit
characters. -/
theorem isHexDigit_mem (c : Char) (h : isHexDigit c = true) :
    c ∈ hexDigitChars := by
  unfold isHexDigit at h
  simp only [Bool.or_eq_true, Bool.and_eq_true, decide_eq_true_eq] at h
  have hmem : c.toNat ∈ hexDigitNats := by
    unfold hexDigitNats
    simp only [List.mem_cons, List.not_mem_nil, or_false]
    omega
  show c ∈ hexDigitNats.map Char.ofNat
  have h2 := List.mem_map_of_mem Char.ofNat hmem
  rwa [Char.ofNat_toNat] at h2

/-- One hex digit is worth at most 15. -/
theorem hexVal_le15 : ∀ c ∈ hexDigitChars, hexVal c ≤ 15 := by decide

set_option maxRecDepth 8192 in
/-- Printing the byte formed of two hex digits, then uppercasing, yields the
uppercased digits themselves. -/
theorem hexPair_print : ∀ c1 ∈ hexDigitChars, ∀ c2 ∈ hexDigitChars,
    (toHexPair (16 * hexVal c1 + hexVal c2)).map Char.toUpper
      = [Char.toUpper c1, Char.toUpper c2] := by decide

/-- `toUpperCase` is idempotent on hex digits. -/
theorem toUpper_idem_hex : ∀ c ∈ hexDigitChars,
    Char.toUpper (Char.toUpper c) = Char.toUpper c := by decide

/-- Destructuring a string accepted by `isValidHexColor`. -/
theorem valid_spec (A : String) (h : isValidHexColor A = true) :
    ∃ c1 c2 c3 c4 c5 c6, A.data = ['#', c1, c2, c3, c4, c5, c6]
      ∧ isHexDigit c1 = true ∧ isHexDigit c2 = true ∧ isHexDigit c3 = true
      ∧ isHexDigit c4 = true ∧ isHexDigit c5 = true
      ∧ isHexDigit c6 = true := by
  unfold isValidHexColor at h
  rcases hd : A.data with _ | ⟨c0, l⟩
  · rw [hd] at h
    simp at h
  · rw [hd] at h
    simp only [Bool.and_eq_true, beq_iff_eq, List.all_eq_true] at h
    obtain ⟨⟨hc0, hlen⟩, hall⟩ := h
    subst hc0
    rcases l with _ | ⟨c1, l⟩
    · simp at hlen
    rcases l with _ | ⟨c2, l⟩
    · simp at hlen
    rcases l with _ | ⟨c3, l⟩
    · simp at hlen
    rcases l with _ | ⟨c4, l⟩
    · simp at hlen
    rcases l with _ | ⟨c5, l⟩
    · simp at hlen
    rcases l with _ | ⟨c6, l⟩
    · simp at hlen
    rcases l with _ | ⟨c7, l⟩
    · exact ⟨c1, c2, c3, c4, c5, c6, rfl,
        hall c1 (by simp), hall c2 (by simp), hall c3 (by simp),
        hall c4 (by simp), hall c5 (by simp), hall c6 (by simp)⟩
    · simp only [List.length_cons] at hlen
      omega

/-- `hexToRgb` on a destructured valid color string. -/
theorem hexToRgb_of_data (A : String) (c1 c2 c3 c4 c5 c6 : Char)
    (hd : A.data = ['#', c1, c2, c3, c4, c5, c6])
    (h1 : isHexDigit c1 = true) (h2 : isHexDigit c2 = true)
    (h3 : isHexDigit c3 = true) (h4 : isHexDigit c4 = true)
    (h5 : isHexDigit c5 = true) (h6 : isHexDigit c6 = true) :
    hexToRgb A = some (16 * hexVal c1 + hexVal c2,
      16 * hexVal c3 + hexVal c4, 16 * hexVal c5 + hexVal c6) := by
  unfold hexToRgb
  rw [hd]
  show (if isHexDigit c1 && isHexDigit c2 && isHexDigit c3 && isHexDigit c4
        && isHexDigit c5 && isHexDigit c6 then
      some (16 * hexVal c1 + hexVal c2, 16 * hexVal c3 + hexVal c4,
        16 * hexVal c5 + hexVal c6)
    else none) = _
  rw [h1, h2, h3, h4, h5, h6]
  simp

/-- The animator's `clamp` is the identity on natural channels in
`[0, 255]`. -/
theorem clamp_natCast (n : ℕ) (h : n ≤ 255) :
    clamp ((n : ℕ) : ℚ) = (n : ℤ) := by
  unfold clamp
  rw [round_natCast,
    min_eq_right (by exact_mod_cast h : ((n : ℕ) : ℤ) ≤ 255),
    max_eq_right (by positivity : (0 : ℤ) ≤ ((n : ℕ) : ℤ))]

/-- Two hex digits make a byte. -/
theorem hexByte_le (c d : Char) (hc : isHexDigit c = true)
    (hd : isHexDigit d = true) : 16 * hexVal c + hexVal d ≤ 255 := by
  have h1 := hexVal_le15 c (isHexDigit_mem c hc)
  have h2 := hexVal_le15 d (isHexDigit_mem d hd)
  omega

/-- `mixColors` at parameter 0 returns the uppercased first endpoint. -/
theorem mix_zero_eq_upper (A B : String) (hA : isValidHexColor A = true)
    (hB : isValidHexColor B = true) : mixColors A B 0 = jsToUpperCase A := by
  obtain ⟨a1, a2, a3, a4, a5, a6, hdA, ha1, ha2, ha3, ha4, ha5, ha6⟩ :=
    valid_spec A hA
  obtain ⟨b1, b2, b3, b4, b5, b6, hdB, hb1, hb2, hb3, hb4, hb5, hb6⟩ :=
    valid_spec B hB
  have hvA := hexToRgb_of_data A a1 a2 a3 a4 a5 a6 hdA ha1 ha2 ha3 ha4 ha5 ha6
  have hvB := hexToRgb_of_data B b1 b2 b3 b4 b5 b6 hdB hb1 hb2 hb3 hb4 hb5 hb6
  have hclamp0 : ∀ v w : ℕ, v ≤ 255 →
      clamp ((v : ℚ) + ((w : ℚ) - (v : ℚ)) * 0) = (v : ℤ) := by
    intro v w hv
    rw [show (v : ℚ) + ((w : ℚ) - (v : ℚ)) * 0 = ((v : ℕ) : ℚ) by ring]
    exact clamp_natCast v hv
  rw [mixColors_eval A B _ _ _ _ _ _ 0 _ _ _ hvA hvB
    (hclamp0 _ _ (hexByte_le a1 a2 ha1 ha2))
    (hclamp0 _ _ (hexByte_le a3 a4 ha3 ha4))
    (hclamp0 _ _ (hexByte_le a5 a6 ha5 ha6))]
  simp only [Int.cast_natCast]
  rw [rgbToHex_natCast _ _ _ (hexByte_le a1 a2 ha1 ha2)
      (hexByte_le a3 a4 ha3 ha4) (hexByte_le a5 a6 ha5 ha6)]
  show _ = String.mk (A.data.map Char.toUpper)
  rw [hdA]
  simp only [List.map_cons, List.map_append,
    hexPair_print a1 (isHexDigit_mem _ ha1) a2 (isHexDigit_mem _ ha2),
    hexPair_print a3 (isHexDigit_mem _ ha3) a4 (isHexDigit_mem _ ha4),
    hexPair_print a5 (isHexDigit_mem _ ha5) a6 (isHexDigit_mem _ ha6)]
  rfl

/-- `mixColors` at parameter 1 returns the uppercased second endpoint. -/
theorem mix_one_eq_upper (A B : String) (hA : isValidHexColor A = true)
    (hB : isValidHexColor B = true) : mixColors A B 1 = jsToUpperCase B := by
  obtain ⟨a1, a2, a3, a4, a5, a6, hdA, ha1, ha2, ha3, ha4, ha5, ha6⟩ :=
    valid_spec A hA
  obtain ⟨b1, b2, b3, b4, b5, b6, hdB, hb1, hb2, hb3, hb4, hb5, hb6⟩ :=
    valid_spec B hB
  have hvA := hexToRgb_of_data A a1 a2 a3 a4 a5 a6 hdA ha1 ha2 ha3 ha4 ha5 ha6
  have hvB := hexToRgb_of_data B b1 b2 b3 b4 b5 b6 hdB hb1 hb2 hb3 hb4 hb5 hb6
  have hclamp1 : ∀ v w : ℕ, w ≤ 255 →
      clamp ((v : ℚ) + ((w : ℚ) - (v : ℚ)) * 1) = (w : ℤ) := by
    intro v w hw
    rw [show (v : ℚ) + ((w : ℚ) - (v : ℚ)) * 1 = ((w : ℕ) : ℚ) by ring]
    exact clamp_natCast w hw
  rw [mixColors_eval A B _ _ _ _ _ _ 1 _ _ _ hvA hvB
    (hclamp1 _ _ (hexByte_le b1 b2 hb1 hb2))
    (hclamp1 _ _ (hexByte_le b3 b4 hb3 hb4))
    (hclamp1 _ _ (hexByte_le b5 b6 hb5 hb6))]
  simp only [Int.cast_natCast]
  rw [rgbToHex_natCast _ _ _ (hexByte_le b1 b2 hb1 hb2)
      (hexByte_le b3 b4 hb3 hb4) (hexByte_le b5 b6 hb5 hb6)]
  show _ = String.mk (B.data.map Char.toUpper)
  rw [hdB]
  simp only [List.map_cons, List.map_append,
    hexPair_print b1 (isHexDigit_mem _ hb1) b2 (isHexDigit_mem _ hb2),
    hexPair_print b3 (isHexDigit_mem _ hb3) b4 (isHexDigit_mem _ hb4),
    hexPair_print b5 (isHexDigit_mem _ hb5) b6 (isHexDigit_mem _ hb6)]
  rfl

/-- Uppercasing a valid hex color string is idempotent. -/
theorem upper_idem_valid (A : String) (hA : isValidHexColor A = true) :
    jsToUpperCase (jsToUpperCase A) = jsToUpperCase A := by
  obtain ⟨a1, a2, a3, a4, a5, a6, hdA, ha1, ha2, ha3, ha4, ha5, ha6⟩ :=
    valid_spec A hA
  show String.mk ((String.mk (A.data.map Char.toUpper)).data.map Char.toUpper)
    = String.mk (A.data.map Char.toUpper)
  show String.mk ((A.data.map Char.toUpper).map Char.toUpper)
    = String.mk (A.data.map Char.toUpper)
  rw [List.map_map]
  congr 1
  refine List.map_congr_left ?_
  intro x hx
  rw [hdA] at hx
  simp only [List.mem_cons, List.not_mem_nil, or_false] at hx
  rcases hx with rfl | rfl | rfl | rfl | rfl | rfl | rfl
  · decide
  · exact toUpper_idem_hex _ (isHexDigit_mem _ ha1)
  · exact toUpper_idem_hex _ (isHexDigit_mem _ ha2)
  · exact toUpper_idem_hex _ (isHexDigit_mem _ ha3)
  · exact toUpper_idem_hex _ (isHexDigit_mem _ ha4)
  · exact toUpper_idem_hex _ (isHexDigit_mem _ ha5)
  · exact toUpper_idem_hex _ (isHexDigit_mem _ ha6)

/-- C7 counterexample: `#ffffff` is a valid color (the regex is
case-insensitive), but `mix(#ffffff, #000000, 0)` is the uppercase-normalised
`#FFFFFF`, which is not string-equal to the input. -/
theorem mix_endpoint_case_counterexample :
    isValidHexColor "#ffffff" = true
    ∧ mixColors "#ffffff" "#000000" 0 ≠ "#ffffff" := by
  refine ⟨by decide, ?_⟩
  have hc : clamp (((255 : ℕ) : ℚ) + (((0 : ℕ) : ℚ) - ((255 : ℕ) : ℚ)) * 0)
      = 255 := by
    rw [show ((255 : ℕ) : ℚ) + (((0 : ℕ) : ℚ) - ((255 : ℕ) : ℚ)) * 0
      = ((255 : ℕ) : ℚ) by push_cast; ring]
    exact clamp_natCast 255 (by norm_num)
  have hv : mixColors "#ffffff" "#000000" 0 = "#FFFFFF" := by
    rw [mixColors_eval "#ffffff" "#000000" 255 255 255 0 0 0 0 255 255 255
      rfl rfl hc hc hc,
      rgbToHex_int 255 255 255 (by norm_num) (by norm_num) (by norm_num)
        (by norm_num) (by norm_num) (by norm_num)]
    decide
  rw [hv]
  decide

/-- C7 (amended): `mixColors` is component-wise linear interpolation whose
endpoint identities hold up to the library's own output normalisation: for
all valid (case-insensitive) six-digit hex colors `A`, `B`,
`mix(A,B,0)` equals `A` and `mix(A,B,1)` equals `B` under the library's
case-insensitive `colorsEqual` — with plain string equality whenever the
input is already in uppercase-normalised form — and
`mix(#000000,#FFFFFF,1/2) = #808080` under round-half-up rounding. -/
theorem mix_endpoint_identities (A B : String) (hA : isValidHexColor A = true)
    (hB : isValidHexColor B = true) :
    colorsEqual (mixColors A B 0) A = true
    ∧ colorsEqual (mixColors A B 1) B = true
    ∧ (jsToUpperCase A = A → mixColors A B 0 = A)
    ∧ (jsToUpperCase B = B → mixColors A B 1 = B)
    ∧ mixColors "#000000" "#FFFFFF" (1/2) = "#808080" := by
  have h0 := mix_zero_eq_upper A B hA hB
  have h1 := mix_one_eq_upper A B hA hB
  refine ⟨?_, ?_, fun hu => by rw [h0, hu], fun hu => by rw [h1, hu],
    mixColors_black_white_half⟩
  · unfold colorsEqual
    rw [h0, upper_idem_valid A hA]
    exact beq_self_eq_true _
  · unfold colorsEqual
    rw [h1, upper_idem_valid B hB]
    exact beq_self_eq_true _

/-- C7 witness: the endpoint identities at mixed-case and uppercase
inputs. -/
theorem mix_endpoint_identities_witness :
    (colorsEqual (mixColors "#aB12cD" "#123456" 0) "#aB12cD" = true
      ∧ colorsEqual (mixColors "#aB12cD" "#123456" 1) "#123456" = true)
    ∧ mixColors "#ABCDEF" "#123456" 0 = "#ABCDEF"
    ∧ mixColors "#000000" "#FFFFFF" (1/2) = "#808080" :=
  ⟨⟨(mix_endpoint_identities "#aB12cD" "#123456" (by decide) (by decide)).1,
    (mix_endpoint_identities "#aB12cD" "#123456" (by decide) (by decide)).2.1⟩,
    (mix_endpoint_identities "#ABCDEF" "#123456" (by decide)
      (by decide)).2.2.1 (by decide),
    (mix_endpoint_identities "#ABCDEF" "#123456" (by decide)
      (by decide)).2.2.2.2⟩

/-! ## C8: predicate auto-stop watcher -/

/-- The watcher, started at index `m`, stops exactly at the first failing
evaluation `j ≥ m`, cancelling the animation by id. -/
theorem watcherLoop_first_fail (pred : ℕ → Option Bool) (id : String)
    (st : AnimatorState) :
    ∀ (fuel m j : ℕ), m ≤ j →
      (∀ k, m ≤ k → k < j → predOk (pred k) = true) →
      predOk (pred j) = false → j - m < fuel →
      watcherLoop pred id st fuel m = (stopAnimation id st, some j) := by
  intro fuel
  induction fuel with
  | zero => omega
  | succ f ih =>
    intro m j hmj hfirst hfail hfuel
    unfold watcherLoop
    by_cases hm : predOk (pred m) = true
    · rw [if_pos hm]
      have hne : m ≠ j := fun he => by rw [he, hfail] at hm; cases hm
      exact ih (m + 1) j (by omega) (fun k hk1 hk2 => hfirst k (by omega) hk2)
        hfail (by omega)
    · rw [if_neg hm]
      have hmj' : m = j := by
        by_contra hne
        exact hm (hfirst m le_rfl (by omega))
      rw [hmj']

/-- A thrown predicate and a predicate returning `false` drive the watcher
identically. -/
theorem watcherLoop_congr (pred pred' : ℕ → Option Bool) (id : String)
    (st : AnimatorState) (h : ∀ k, predOk (pred k) = predOk (pred' k)) :
    ∀ (fuel m : ℕ), watcherLoop pred id st fuel m
      = watcherLoop pred' id st fuel m := by
  intro fuel
  induction fuel with
  | zero => intro m; rfl
  | succ f ih =>
    intro m
    unfold watcherLoop
    rw [h m]
    split
    · exact ih (m + 1)
    · rfl

/-- C8 counterexample: at `durationMs = 401` the watcher polls every
`max(200, round(401/2)) = 201` ms, not the claimed `max(200ms, 401/2) =
200.5` ms. -/
theorem poll_interval_counterexample :
    pollInterval 401 = 201 ∧ pollInterval 401 ≠ max 200 ((401 : ℚ) / 2) := by
  have hr : round ((401 : ℚ) / 2) = 201 := round_eval _ _ (by norm_num)
    (by norm_num)
  have h1 : pollInterval 401 = 201 := by
    unfold pollInterval
    rw [hr]
    norm_num
  refine ⟨h1, ?_⟩
  rw [h1]
  have hm : max (200 : ℚ) ((401 : ℚ) / 2) = 401 / 2 := by
    rw [max_eq_right]
    norm_num
  rw [hm]
  norm_num

/-- C8 (amended): the watcher polls at interval `max(200ms,
round(durationMs/2))`; the evaluation sequence stops at the first evaluation
that is not truthy — whether it returned `false` or threw — at which point the
watcher cancels the animation by id (`stopAnimation`) and exits; a thrown
evaluation behaves exactly like one returning `false`. -/
theorem predicate_watcher_behaviour :
    (∀ d : ℚ, pollInterval d = max 200 ((round (d / 2) : ℤ) : ℚ))
    ∧ (∀ (pred : ℕ → Option Bool) (id : String) (st : AnimatorState)
        (n fuel : ℕ), (∀ k, k < n → predOk (pred k) = true) →
        predOk (pred n) = false → n < fuel →
        watcherLoop pred id st fuel 0 = (stopAnimation id st, some n))
    ∧ (∀ (pred pred' : ℕ → Option Bool) (id : String) (st : AnimatorState),
        (∀ k, predOk (pred k) = predOk (pred' k)) →
        ∀ (fuel m : ℕ), watcherLoop pred id st fuel m
          = watcherLoop pred' id st fuel m)
    ∧ predOk none = predOk (some false) := by
  refine ⟨fun d => rfl, ?_, watcherLoop_congr, rfl⟩
  intro pred id st n fuel hfirst hfail hfuel
  exact watcherLoop_first_fail pred id st fuel 0 n (Nat.zero_le n)
    (fun k _ hk => hfirst k hk) hfail (by omega)

/-- C8 witness: a predicate that throws on its third evaluation stops the
watcher there, cancelling the animation. -/
theorem predicate_watcher_behaviour_witness :
    watcherLoop (fun k => if k == 2 then none else some true) "anim-1"
        (mkAnimator 15) 10 0
      = (stopAnimation "anim-1" (mkAnimator 15), some 2) :=
  predicate_watcher_behaviour.2.1 (fun k => if k == 2 then none else some true)
    "anim-1" (mkAnimator 15) 2 10 (by decide) (by decide) (by decide)

end StreamDeck
